import Mathlib

/-!
Shallow embedding of pkg/controllers/util/federatedinformer.go from the
kubeadmiral repository: the federated informer data model (clusters with
typed conditions, per-cluster target informers with stop channels), the
lifecycle dispatcher (add, update, delete event handlers), the federated
read-only store overlay, and the direct-fetch helper GetClusterObject.

Go maps are modelled as association lists over String keys; goroutine stop
channels are modelled by numeric identities, and an operation reports the
list of channel identities it closes so that double-close (a Go panic) is
expressible. Callback invocation and snapshot capture are modelled as an
event trace emitted by the dispatcher.
-/

namespace FedInformer

/-- Status value of a cluster condition (corev1.ConditionTrue and friends). -/
inductive ConditionStatus
  | conditionTrue
  | conditionFalse
  | conditionUnknown
deriving DecidableEq, Repr

/-- Type of a cluster condition: fedcorev1a1.ClusterReady or ClusterJoined. -/
inductive ClusterConditionType
  | clusterReady
  | clusterJoined
deriving DecidableEq, Repr

/-- One entry of FederatedClusterStatus.Conditions. -/
structure ClusterCondition where
  condType : ClusterConditionType
  status : ConditionStatus
deriving DecidableEq, Repr

/-- FederatedClusterStatus: the ordered condition list. -/
structure FederatedClusterStatus where
  conditions : List ClusterCondition
deriving DecidableEq, Repr

/-- FederatedCluster: name, opaque spec, object metadata used by the update
dispatcher (labels, annotations, deletion timestamp) and the status. -/
structure FederatedCluster where
  name : String
  spec : String
  labels : List (String × String)
  annotations : List (String × String)
  deletionTimestamp : Option Nat
  status : FederatedClusterStatus
deriving DecidableEq, Repr

/-- IsClusterReady: true when some condition of type ClusterReady has status
ConditionTrue (the Go loop returns true at the first such condition). -/
def IsClusterReady (clusterStatus : FederatedClusterStatus) : Bool :=
  clusterStatus.conditions.any fun condition =>
    condition.condType == ClusterConditionType.clusterReady &&
      condition.status == ConditionStatus.conditionTrue

/-- IsClusterJoined: true when some condition of type ClusterJoined has status
ConditionTrue. -/
def IsClusterJoined (clusterStatus : FederatedClusterStatus) : Bool :=
  clusterStatus.conditions.any fun condition =>
    condition.condType == ClusterConditionType.clusterJoined &&
      condition.status == ConditionStatus.conditionTrue

/-- A member-cluster object held in a target informer mirror. The managed
field models presence of the management marker label. -/
structure Unstructured where
  namespc : String
  objName : String
  managed : Bool
deriving DecidableEq, Repr

/-- Modelled from the spec: managedlabel.HasManagedLabel (package not under
src) checks the required management marker on an object; the marker is
modelled as the boolean field of Unstructured. -/
def HasManagedLabel (obj : Unstructured) : Bool :=
  obj.managed

/-- cache.Store: GetByKey returns (item, exists, error); List returns the
mirrored items. -/
structure CacheStore (α : Type) where
  getByKey : String → Option α × Bool × Option String
  items : List α

/-- cache.Controller: only its HasSynced answer matters to this embedding. -/
structure CacheController where
  hasSynced : Bool
deriving DecidableEq, Repr

/-- The informer struct: controller, store and stop channel (a channel is
modelled by a numeric identity). -/
structure Informer (α : Type) where
  controller : CacheController
  store : CacheStore α
  stopChan : Nat

/-- An item of the cluster registry store: Go stores interface values, so an
item is either a FederatedCluster or data of the wrong type. -/
inductive ClusterStoreItem
  | cluster (c : FederatedCluster)
  | other (desc : String)
deriving DecidableEq, Repr

/-- federatedInformerImpl: the registry informer, the target-informer map and
the client cache (clients modelled by numeric identities). -/
structure FederatedInformerImpl where
  clusterInformer : Informer ClusterStoreItem
  targetInformers : List (String × Informer Unstructured)
  clusterClients : List (String × Nat)

/-- Lookup in a Go map modelled as an association list. -/
def assocLookup {α : Type} : List (String × α) → String → Option α
  | [], _ => none
  | (k, v) :: rest, key => if k = key then some v else assocLookup rest key

/-- Deletion from a Go map modelled as an association list. -/
def assocErase {α : Type} : List (String × α) → String → List (String × α)
  | [], _ => []
  | (k, v) :: rest, key =>
      if k = key then assocErase rest key else (k, v) :: assocErase rest key

/-- Assignment in a Go map: overwrite the entry when the key is present,
append it otherwise. -/
def assocSet {α : Type} : List (String × α) → String → α → List (String × α)
  | [], key, v => [(key, v)]
  | (k, w) :: rest, key, v =>
      if k = key then (key, v) :: rest else (k, w) :: assocSet rest key v

/-- Stop: closes the cluster informer stop channel, then closes and removes
every target informer. Returns the new state and the list of channel
identities this call closes, in order. -/
def Stop (f : FederatedInformerImpl) : FederatedInformerImpl × List Nat :=
  ({ f with targetInformers := [] },
    f.clusterInformer.stopChan :: f.targetInformers.map fun p => p.2.stopChan)

/-- addCluster: resolves the cluster configuration and the target informer
factory (their success is a parameter); on success records the new informer
under the cluster name. Returns the new state and the channels closed by
this call. -/
def addCluster (f : FederatedInformerImpl) (clusterName : String)
    (cfgOk factoryOk : Bool) (newInformer : Informer Unstructured) :
    FederatedInformerImpl × List Nat :=
  if cfgOk then
    if factoryOk then
      ({ f with
          targetInformers := assocSet f.targetInformers clusterName newInformer },
        [])
    else (f, [])
  else (f, [])

/-- deleteCluster: closes the stop channel of the target informer for the
cluster when one is present, then removes the informer entry and the cached
client. Returns the new state and the channels closed by this call. -/
def deleteCluster (f : FederatedInformerImpl) (clusterName : String) :
    FederatedInformerImpl × List Nat :=
  (({ f with
      targetInformers := assocErase f.targetInformers clusterName,
      clusterClients := assocErase f.clusterClients clusterName }),
    match assocLookup f.targetInformers clusterName with
    | some targetInformer => [targetInformer.stopChan]
    | none => [])

/-- Observable actions of the cluster lifecycle dispatcher, in the order the
update handler performs them. -/
inductive DispatchEvent
  | captureSnapshot (clusterName : String)
  | invokeUnavailable (clusterName : String)
  | destroyHandle (clusterName : String)
  | installHandle (clusterName : String)
  | invokeAvailable (clusterName : String)
deriving DecidableEq, Repr

/-- UpdateFunc of the cluster event handler: the marked-for-deletion branch
(old deletion timestamp nil, new one set) only captures a snapshot and
invokes ClusterUnavailable when that callback is registered; the
readiness-flip or spec, labels, annotations difference branch captures a
snapshot when the callback is registered, calls deleteCluster, invokes
ClusterUnavailable, and when the new cluster is ready calls addCluster and
invokes ClusterAvailable; otherwise nothing happens. Returns the new state
and the dispatcher event trace. -/
def UpdateFunc (f : FederatedInformerImpl) (old cur : FederatedCluster)
    (unavailableRegistered availableRegistered : Bool)
    (cfgOk factoryOk : Bool) (newInformer : Informer Unstructured) :
    FederatedInformerImpl × List DispatchEvent :=
  if old.deletionTimestamp = none ∧ cur.deletionTimestamp ≠ none then
    (f,
      if unavailableRegistered then
        [DispatchEvent.captureSnapshot old.name,
          DispatchEvent.invokeUnavailable old.name]
      else [])
  else if IsClusterReady old.status ≠ IsClusterReady cur.status ∨
      old.spec ≠ cur.spec ∨ old.labels ≠ cur.labels ∨
      old.annotations ≠ cur.annotations then
    let f1 := (deleteCluster f old.name).1
    let trace1 :=
      (if unavailableRegistered then [DispatchEvent.captureSnapshot old.name]
        else []) ++
      [DispatchEvent.destroyHandle old.name] ++
      (if unavailableRegistered then [DispatchEvent.invokeUnavailable old.name]
        else [])
    if IsClusterReady cur.status then
      ((addCluster f1 cur.name cfgOk factoryOk newInformer).1,
        trace1 ++ [DispatchEvent.installHandle cur.name] ++
          (if availableRegistered then
            [DispatchEvent.invokeAvailable cur.name]
          else []))
    else (f1, trace1)
  else (f, [])

/-- Loop of getJoinedClusters over the registry store items: wrong-typed data
is a hard error, a cluster is kept when it is joined and, when onlyReady is
set, also ready. -/
def getJoinedClustersLoop (onlyReady : Bool) :
    List ClusterStoreItem → Except String (List FederatedCluster)
  | [] => Except.ok []
  | ClusterStoreItem.cluster c :: rest =>
      if IsClusterJoined c.status && (!onlyReady || IsClusterReady c.status) then
        (getJoinedClustersLoop onlyReady rest).map fun r => c :: r
      else getJoinedClustersLoop onlyReady rest
  | ClusterStoreItem.other desc :: _ =>
      Except.error
        ("wrong data in FederatedInformerImpl cluster store: " ++ desc)

/-- getJoinedClusters: filters the registry informer listing. -/
def getJoinedClusters (f : FederatedInformerImpl) (onlyReady : Bool) :
    Except String (List FederatedCluster) :=
  getJoinedClustersLoop onlyReady f.clusterInformer.store.items

/-- GetReadyClusters delegates to getJoinedClusters with onlyReady true. -/
def GetReadyClusters (f : FederatedInformerImpl) :
    Except String (List FederatedCluster) :=
  getJoinedClusters f true

/-- GetJoinedClusters delegates to getJoinedClusters with onlyReady false. -/
def GetJoinedClusters (f : FederatedInformerImpl) :
    Except String (List FederatedCluster) :=
  getJoinedClusters f false

/-- An object of the overlay store tagged with its origin cluster name; the
object component is the interface value a store lookup produced. -/
structure FederatedObject where
  object : Option Unstructured
  clusterName : String
deriving DecidableEq, Repr

/-- ListFromCluster of the federated store: items of the target informer for
the cluster, or the empty list (with a nil error) when no informer exists. -/
def ListFromCluster (f : FederatedInformerImpl) (clusterName : String) :
    List Unstructured × Option String :=
  match assocLookup f.targetInformers clusterName with
  | some targetInformer => (targetInformer.store.items, none)
  | none => ([], none)

/-- GetByKey of the federated store: delegate to the target informer for the
cluster, or return a cluster-not-found error when no informer exists. -/
def GetByKey (f : FederatedInformerImpl) (clusterName key : String) :
    Option Unstructured × Bool × Option String :=
  match assocLookup f.targetInformers clusterName with
  | some targetInformer => targetInformer.store.getByKey key
  | none => (none, false, some ("cluster " ++ clusterName ++ " not found"))

/-- Loop of GetFromAllClusters over the target informers: a lookup error is
returned at once with no partial result; an existing item is tagged with its
origin cluster name. -/
def getFromAllClustersLoop (key : String) :
    List (String × Informer Unstructured) → Except String (List FederatedObject)
  | [] => Except.ok []
  | (clusterName, targetInformer) :: rest =>
      let r := targetInformer.store.getByKey key
      match r.2.2 with
      | some e => Except.error e
      | none =>
        if r.2.1 then
          (getFromAllClustersLoop key rest).map fun rs =>
            { object := r.1, clusterName := clusterName } :: rs
        else getFromAllClustersLoop key rest

/-- GetFromAllClusters of the federated store. -/
def GetFromAllClusters (f : FederatedInformerImpl) (key : String) :
    Except String (List FederatedObject) :=
  getFromAllClustersLoop key f.targetInformers

/-- The lookup loop of ClustersSynced: the informer for every listed cluster,
or none when some listed cluster has no target informer. -/
def collectInformersToCheck (f : FederatedInformerImpl) :
    List FederatedCluster → Option (List (Informer Unstructured))
  | [] => some []
  | c :: rest =>
      match assocLookup f.targetInformers c.name with
      | some targetInformer =>
          (collectInformersToCheck f rest).map fun r => targetInformer :: r
      | none => none

/-- ClustersSynced of the federated store: false when the informer count
differs from the cluster count or some listed cluster has no informer;
otherwise true when every collected informer reports HasSynced. -/
def ClustersSynced (f : FederatedInformerImpl)
    (clusters : List FederatedCluster) : Bool :=
  if f.targetInformers.length ≠ clusters.length then false
  else
    match collectInformersToCheck f clusters with
    | none => false
    | some informersToCheck =>
        informersToCheck.all fun i => i.controller.hasSynced

/-- ClusterSynced of the federated store: the HasSynced answer of the target
informer for the cluster, false when no informer exists. -/
def ClusterSynced (f : FederatedInformerImpl) (clusterName : String) : Bool :=
  match assocLookup f.targetInformers clusterName with
  | some targetInformer => targetInformer.controller.hasSynced
  | none => false

/-- An item handed to the store key function: an ordinary object carrying
namespace and name metadata, a deletion tombstone carrying its stored key, or
data without object metadata. -/
inductive KeyItem
  | object (namespc objName : String)
  | tombstone (storedKey : String)
  | invalid (desc : String)
deriving DecidableEq, Repr

/-- Modelled from the spec: cache.DeletionHandlingMetaNamespaceKeyFunc
(client-go library code, not under src) derives the namespace slash name
composite key, is deletion tolerant (a tombstone yields its stored key), and
on an item without object metadata yields the empty string together with an
error. -/
def DeletionHandlingMetaNamespaceKeyFunc : KeyItem → String × Option String
  | KeyItem.object ns n => (if ns = "" then n else ns ++ "/" ++ n, none)
  | KeyItem.tombstone k => (k, none)
  | KeyItem.invalid desc => ("", some ("object has no meta: " ++ desc))

/-- GetKeyFor of the federated store: the key component of the key function
result, with the error component discarded. -/
def GetKeyFor (item : KeyItem) : String :=
  (DeletionHandlingMetaNamespaceKeyFunc item).1

/-- Outcome of a direct point read against the remote apiserver. -/
inductive RemoteGetResult
  | found (obj : Unstructured)
  | notFound
  | otherError (e : String)

/-- Outcome of GetClientForCluster: a usable client (a point-read function)
or an error. -/
inductive ClientResult
  | client (get : String → RemoteGetResult)
  | clientError (e : String)

/-- GetClusterObject: when the target informer for the cluster reports
synced, serve from the local mirror, reporting lookup errors and absence as
is; otherwise obtain a client and issue a direct remote read, where not
found is reported as absence without error, other errors are wrapped, and an
object lacking the management marker is reported as absent without error. -/
def GetClusterObject (f : FederatedInformerImpl)
    (getClient : String → ClientResult) (clusterName qualifiedName : String) :
    Option Unstructured × Bool × Option String :=
  if ClusterSynced f clusterName then
    let r := GetByKey f clusterName qualifiedName
    if r.2.2 ≠ none ∨ r.2.1 = false then (none, r.2.1, r.2.2)
    else (r.1, r.2.1, r.2.2)
  else
    match getClient clusterName with
    | ClientResult.clientError e =>
        (none, false,
          some ("failed to get client for cluster " ++ clusterName ++ ": " ++ e))
    | ClientResult.client get =>
      match get qualifiedName with
      | RemoteGetResult.notFound => (none, false, none)
      | RemoteGetResult.otherError e =>
          (none, false,
            some ("failed to get object " ++ qualifiedName ++
              " with client: " ++ e))
      | RemoteGetResult.found clusterObj =>
          if !HasManagedLabel clusterObj then (none, false, none)
          else (some clusterObj, true, none)

/-- Modelled from the spec: NewManagedResourceInformer (repository code not
under src) builds each per-cluster mirror so that the policy filter of the
management marker is applied uniformly on both read paths, that is, the
mirror only ever serves objects bearing the marker. This predicate states
that property of a store. -/
def ManagedMirror (s : CacheStore Unstructured) : Prop :=
  ∀ key obj, s.getByKey key = (some obj, true, none) → HasManagedLabel obj = true

/-- An empty target mirror store. -/
def emptyUStore : CacheStore Unstructured :=
  { getByKey := fun _ => (none, false, none), items := [] }

/-- A target informer fixture with a synced controller. -/
def mkTargetInformer (chan : Nat) (store : CacheStore Unstructured) :
    Informer Unstructured :=
  { controller := { hasSynced := true }, store := store, stopChan := chan }

/-- A registry informer fixture over the given listing, stop channel zero. -/
def mkRegistryInformer (items : List ClusterStoreItem) :
    Informer ClusterStoreItem :=
  { controller := { hasSynced := true },
    store := { getByKey := fun _ => (none, false, none), items := items },
    stopChan := 0 }

/-- A federated informer state fixture with an empty client cache. -/
def mkImpl (targets : List (String × Informer Unstructured))
    (registryItems : List ClusterStoreItem) : FederatedInformerImpl :=
  { clusterInformer := mkRegistryInformer registryItems,
    targetInformers := targets, clusterClients := [] }

/-- A Ready condition with status true. -/
def readyCond : ClusterCondition :=
  { condType := ClusterConditionType.clusterReady,
    status := ConditionStatus.conditionTrue }

/-- A Joined condition with status true. -/
def joinedCond : ClusterCondition :=
  { condType := ClusterConditionType.clusterJoined,
    status := ConditionStatus.conditionTrue }

/-- A cluster fixture with empty spec, labels and annotations. -/
def mkCluster (name : String) (conds : List ClusterCondition)
    (dt : Option Nat) : FederatedCluster :=
  { name := name, spec := "", labels := [], annotations := [],
    deletionTimestamp := dt, status := { conditions := conds } }

/-- Cluster A, joined and ready, not marked for deletion. -/
def clusterA : FederatedCluster := mkCluster "A" [readyCond, joinedCond] none

/-- Cluster A, ready but not joined. -/
def clusterAReadyOnly : FederatedCluster := mkCluster "A" [readyCond] none

/-- Cluster A with no conditions: neither joined nor ready. -/
def clusterANotReady : FederatedCluster := mkCluster "A" [] none

/-- Cluster A, joined and ready, marked for deletion. -/
def clusterAMarked : FederatedCluster :=
  mkCluster "A" [readyCond, joinedCond] (some 5)

/-- State fixture for Stop: registry stop channel 0, one target informer for
cluster A with stop channel 1. -/
def implStop : FederatedInformerImpl :=
  mkImpl [("A", mkTargetInformer 1 emptyUStore)] []

/-- State fixture for addCluster: one target informer for A, channel 1. -/
def implAdd : FederatedInformerImpl :=
  mkImpl [("A", mkTargetInformer 1 emptyUStore)] []

/-- A replacement informer with a fresh stop channel. -/
def newInf2 : Informer Unstructured := mkTargetInformer 2 emptyUStore

/-- State fixture for ClustersSynced: synced target informers for A and B. -/
def implSync : FederatedInformerImpl :=
  mkImpl [("A", mkTargetInformer 1 emptyUStore),
    ("B", mkTargetInformer 2 emptyUStore)] []

/-- State fixture with a single synced target informer for A. -/
def implW4 : FederatedInformerImpl :=
  mkImpl [("A", mkTargetInformer 1 emptyUStore)] []

/-- Registry fixture for GetReadyClusters listing only the ready-not-joined
cluster A. -/
def implC7 : FederatedInformerImpl :=
  mkImpl [] [ClusterStoreItem.cluster clusterAReadyOnly]

/-- Registry fixture for GetReadyClusters listing the joined and ready
cluster A. -/
def implW7 : FederatedInformerImpl :=
  mkImpl [] [ClusterStoreItem.cluster clusterA]

/-- A managed object fixture under key k. -/
def objK : Unstructured := { namespc := "ns", objName := "x", managed := true }

/-- A mirror store containing objK under key k. -/
def storeWithK : CacheStore Unstructured :=
  { getByKey := fun key =>
      if key = "k" then (some objK, true, none) else (none, false, none),
    items := [objK] }

/-- A mirror store whose every lookup fails. -/
def storeErr : CacheStore Unstructured :=
  { getByKey := fun _ => (none, false, some "lookup failed"), items := [] }

/-- Fixture for GetFromAllClusters union semantics: A holds key k, B does
not. -/
def implUnion : FederatedInformerImpl :=
  mkImpl [("A", mkTargetInformer 1 storeWithK),
    ("B", mkTargetInformer 2 emptyUStore)] []

/-- Fixture for GetFromAllClusters fail-fast: A holds key k, the lookup on B
fails. -/
def implC8 : FederatedInformerImpl :=
  mkImpl [("A", mkTargetInformer 1 storeWithK),
    ("B", mkTargetInformer 2 storeErr)] []

/-- Fixture with no target informers at all. -/
def implEmpty : FederatedInformerImpl := mkImpl [] []

/-- An object lacking the management marker. -/
def unmanagedObj : Unstructured :=
  { namespc := "ns", objName := "x", managed := false }

/-- A remote read that always serves the unmanaged object. -/
def remoteUnmanaged : String → RemoteGetResult :=
  fun _ => RemoteGetResult.found unmanagedObj

/-- A client factory that always yields the remoteUnmanaged client. -/
def clientUnmanaged : String → ClientResult :=
  fun _ => ClientResult.client remoteUnmanaged

/-- A successful lookup means the key value pair is in the map. -/
theorem assocLookup_mem {α : Type} {l : List (String × α)} {k : String}
    {v : α} (h : assocLookup l k = some v) : (k, v) ∈ l := by
  induction l with
  | nil => simp [assocLookup] at h
  | cons p rest ih =>
    obtain ⟨k', w⟩ := p
    rw [assocLookup] at h
    by_cases hk : k' = k
    · rw [if_pos hk] at h
      subst hk
      obtain rfl : w = v := Option.some.inj h
      exact List.mem_cons_self _ _
    · rw [if_neg hk] at h
      exact List.mem_cons_of_mem _ (ih h)

/-- A successful lookup means the key is among the map keys. -/
theorem mem_keys_of_assocLookup {α : Type} {l : List (String × α)} {k : String}
    {v : α} (h : assocLookup l k = some v) : k ∈ l.map Prod.fst :=
  List.mem_map.mpr ⟨(k, v), assocLookup_mem h, rfl⟩

/-- The lookup succeeds exactly on the map keys. -/
theorem assocLookup_isSome_iff {α : Type} (l : List (String × α)) (k : String) :
    (assocLookup l k).isSome = true ↔ k ∈ l.map Prod.fst := by
  induction l with
  | nil => simp [assocLookup]
  | cons p rest ih =>
    obtain ⟨k', w⟩ := p
    rw [assocLookup]
    by_cases hk : k' = k
    · subst hk
      simp
    · rw [if_neg hk]
      simp only [List.map_cons, List.mem_cons, ih]
      constructor
      · exact fun h => Or.inr h
      · rintro (h | h)
        · exact absurd h.symm hk
        · exact h

/-- With pairwise distinct keys, the lookup of a member pair returns its
value. -/
theorem assocLookup_of_mem_nodup {α : Type} {l : List (String × α)}
    (hk : (l.map Prod.fst).Nodup) {p : String × α} (hp : p ∈ l) :
    assocLookup l p.1 = some p.2 := by
  induction l with
  | nil => cases hp
  | cons q rest ih =>
    obtain ⟨k', w⟩ := q
    rw [List.map_cons, List.nodup_cons] at hk
    rcases List.mem_cons.mp hp with rfl | hp'
    · rw [assocLookup, if_pos rfl]
    · rw [assocLookup]
      by_cases hke : k' = p.1
      · exact absurd (hke ▸ List.mem_map.mpr ⟨p, hp', rfl⟩) hk.1
      · rw [if_neg hke]
        exact ih hk.2 hp'

/-- Membership among the keys after a map assignment. -/
theorem mem_keys_assocSet {α : Type} (l : List (String × α)) (k x : String)
    (v : α) :
    x ∈ (assocSet l k v).map Prod.fst ↔ x = k ∨ x ∈ l.map Prod.fst := by
  induction l with
  | nil => simp [assocSet]
  | cons p rest ih =>
    obtain ⟨k', w⟩ := p
    rw [assocSet]
    by_cases hk : k' = k
    · subst hk
      rw [if_pos rfl]
      simp only [List.map_cons, List.mem_cons]
      tauto
    · rw [if_neg hk]
      simp only [List.map_cons, List.mem_cons, ih]
      tauto

/-- A map assignment keeps the keys pairwise distinct. -/
theorem keys_assocSet_nodup {α : Type} {l : List (String × α)} (k : String)
    (v : α) (h : (l.map Prod.fst).Nodup) :
    ((assocSet l k v).map Prod.fst).Nodup := by
  induction l with
  | nil => simp [assocSet]
  | cons p rest ih =>
    obtain ⟨k', w⟩ := p
    rw [List.map_cons, List.nodup_cons] at h
    rw [assocSet]
    by_cases hk : k' = k
    · subst hk
      rw [if_pos rfl, List.map_cons, List.nodup_cons]
      exact h
    · rw [if_neg hk, List.map_cons, List.nodup_cons]
      refine ⟨fun hmem => ?_, ih h.2⟩
      rcases (mem_keys_assocSet rest k k' v).mp hmem with rfl | hmem'
      · exact hk rfl
      · exact h.1 hmem'

/-- The keys after a map deletion form a sublist of the original keys. -/
theorem keys_assocErase_sublist {α : Type} (l : List (String × α))
    (k : String) :
    ((assocErase l k).map Prod.fst).Sublist (l.map Prod.fst) := by
  induction l with
  | nil => simp [assocErase]
  | cons p rest ih =>
    obtain ⟨k', w⟩ := p
    rw [assocErase]
    by_cases hk : k' = k
    · rw [if_pos hk, List.map_cons]
      exact ih.cons _
    · rw [if_neg hk, List.map_cons, List.map_cons]
      exact ih.cons₂ _

/-- A map deletion keeps the keys pairwise distinct. -/
theorem keys_assocErase_nodup {α : Type} {l : List (String × α)} (k : String)
    (h : (l.map Prod.fst).Nodup) :
    ((assocErase l k).map Prod.fst).Nodup :=
  h.sublist (keys_assocErase_sublist l k)

/-- C2, counterexample: on a state with one target informer, a second Stop
after a completed first Stop closes the cluster informer stop channel
(channel 0) a second time, so a stop channel is closed more than once, which
the claim rules out. -/
theorem stop_twice_counterexample :
    implStop.clusterInformer.stopChan = 0 ∧
    ((Stop implStop).2 ++ (Stop (Stop implStop).1).2).count 0 = 2 := by
  constructor
  · rfl
  · rfl

/-- C2, amended: a first Stop empties the target informer map, so a second
Stop closes no target informer stop channel at all; but the second call
closes exactly the cluster informer stop channel again, a channel the first
call already closed, so the double release of the claim does occur on the
cluster informer channel. -/
theorem stop_twice_cluster_channel_reclosed (f : FederatedInformerImpl) :
    (Stop f).1.targetInformers = [] ∧
    (Stop (Stop f).1).2 = [f.clusterInformer.stopChan] ∧
    f.clusterInformer.stopChan ∈ (Stop f).2 := by
  refine ⟨rfl, rfl, ?_⟩
  rw [Stop]
  exact List.mem_cons_self _ _

/-- C3, counterexample: addCluster for cluster A, whose handle (stop channel
one) is already present, closes no channel at all and records the new
informer, so the previous cancellation signal is never closed, which the
claim requires. -/
theorem addCluster_existing_counterexample :
    (assocLookup implAdd.targetInformers "A").isSome = true ∧
    (addCluster implAdd "A" true true newInf2).2 = [] ∧
    assocLookup (addCluster implAdd "A" true true newInf2).1.targetInformers
      "A" = some newInf2 := by
  refine ⟨rfl, rfl, rfl⟩

/-- C3, amended: at most one target informer per cluster name is kept (both
addCluster and deleteCluster preserve pairwise distinct map keys), and
deleteCluster closes the stop channel of the present handle before removing
it; but addCluster itself closes nothing, so installing over a name that
already has a handle overwrites it without closing the previous cancellation
signal. -/
theorem addCluster_overwrites_without_cancel (f : FederatedInformerImpl)
    (clusterName : String) (cfgOk factoryOk : Bool)
    (newInformer : Informer Unstructured) :
    (addCluster f clusterName cfgOk factoryOk newInformer).2 = [] ∧
    ((f.targetInformers.map Prod.fst).Nodup →
      ((addCluster f clusterName cfgOk factoryOk
          newInformer).1.targetInformers.map Prod.fst).Nodup ∧
      (((deleteCluster f clusterName).1.targetInformers.map
          Prod.fst).Nodup)) ∧
    (∀ targetInformer,
      assocLookup f.targetInformers clusterName = some targetInformer →
      (deleteCluster f clusterName).2 = [targetInformer.stopChan]) := by
  refine ⟨?_, fun hnd => ⟨?_, ?_⟩, fun targetInformer hfound => ?_⟩
  · rw [addCluster]
    by_cases h1 : cfgOk
    · rw [if_pos h1]
      by_cases h2 : factoryOk
      · rw [if_pos h2]
      · rw [if_neg h2]
    · rw [if_neg h1]
  · rw [addCluster]
    by_cases h1 : cfgOk
    · rw [if_pos h1]
      by_cases h2 : factoryOk
      · rw [if_pos h2]
        exact keys_assocSet_nodup clusterName newInformer hnd
      · rw [if_neg h2]
        exact hnd
    · rw [if_neg h1]
      exact hnd
  · exact keys_assocErase_nodup clusterName hnd
  · rw [deleteCluster, hfound]

/-- C3, witness for the amended theorem at the fixture state: addCluster over
the present handle for A closes nothing yet keeps the keys distinct, and
deleteCluster closes channel one. -/
theorem addCluster_overwrites_without_cancel_witness :
    (addCluster implAdd "A" true true newInf2).2 = [] ∧
    ((addCluster implAdd "A" true true
        newInf2).1.targetInformers.map Prod.fst).Nodup ∧
    (deleteCluster implAdd "A").2 = [1] := by
  have h := addCluster_overwrites_without_cancel implAdd "A" true true newInf2
  exact ⟨h.1, (h.2.1 (by decide)).1,
    h.2.2 (mkTargetInformer 1 emptyUStore) rfl⟩

/-- C5, counterexample: on a readiness flip for cluster A (no deletion-marker
change, callbacks registered) the dispatcher trace is capture, destroy,
invoke ClusterUnavailable; the order the claim states, capture, invoke
ClusterUnavailable, destroy, is a different trace. -/
theorem updateFunc_order_counterexample :
    (UpdateFunc implAdd clusterA clusterANotReady true true true true
        newInf2).2 =
      [DispatchEvent.captureSnapshot "A", DispatchEvent.destroyHandle "A",
        DispatchEvent.invokeUnavailable "A"] ∧
    [DispatchEvent.captureSnapshot "A", DispatchEvent.destroyHandle "A",
        DispatchEvent.invokeUnavailable "A"] ≠
      [DispatchEvent.captureSnapshot "A", DispatchEvent.invokeUnavailable "A",
        DispatchEvent.destroyHandle "A"] := by
  exact ⟨by decide, by decide⟩

/-- C5, amended: for every update event where the deletion marker is not
newly set and readiness flips or the spec, labels or annotations differ
structurally, the dispatcher performs in this order: capture the snapshot if
the ClusterUnavailable callback is registered, destroy the old handle, invoke
ClusterUnavailable, and then, if the new cluster state is ready, install a
new handle and invoke ClusterAvailable. -/
theorem updateFunc_transition_order (f : FederatedInformerImpl)
    (old cur : FederatedCluster)
    (unavailableRegistered availableRegistered cfgOk factoryOk : Bool)
    (newInformer : Informer Unstructured)
    (hdel : ¬(old.deletionTimestamp = none ∧ cur.deletionTimestamp ≠ none))
    (htrig : IsClusterReady old.status ≠ IsClusterReady cur.status ∨
      old.spec ≠ cur.spec ∨ old.labels ≠ cur.labels ∨
      old.annotations ≠ cur.annotations) :
    (UpdateFunc f old cur unavailableRegistered availableRegistered cfgOk
        factoryOk newInformer).2 =
      (if unavailableRegistered then [DispatchEvent.captureSnapshot old.name]
        else []) ++
      [DispatchEvent.destroyHandle old.name] ++
      (if unavailableRegistered then [DispatchEvent.invokeUnavailable old.name]
        else []) ++
      (if IsClusterReady cur.status then
        DispatchEvent.installHandle cur.name ::
          (if availableRegistered then [DispatchEvent.invokeAvailable cur.name]
            else [])
      else []) := by
  unfold UpdateFunc
  rw [if_neg hdel, if_pos htrig]
  by_cases hr : IsClusterReady cur.status = true
  · rw [if_pos hr, if_pos hr]
    simp
  · rw [if_neg hr, if_neg hr]
    simp

/-- C5, witness for the amended theorem on the readiness-flip fixture. -/
theorem updateFunc_transition_order_witness :
    (UpdateFunc implAdd clusterA clusterANotReady true true true true
        newInf2).2 =
      [DispatchEvent.captureSnapshot "A", DispatchEvent.destroyHandle "A",
        DispatchEvent.invokeUnavailable "A"] := by
  have h := updateFunc_transition_order implAdd clusterA clusterANotReady
    true true true true newInf2 (by decide) (by decide)
  exact h.trans (by decide)

/-- C6: on an update event where the deletion marker becomes newly set (old
deletion timestamp nil, new one set), the target informer map and the client
cache are unchanged and the trace is exactly capture plus ClusterUnavailable
when that callback is registered, empty otherwise: the handle is not torn
down. -/
theorem updateFunc_marked_for_deletion_frame (f : FederatedInformerImpl)
    (old cur : FederatedCluster)
    (unavailableRegistered availableRegistered cfgOk factoryOk : Bool)
    (newInformer : Informer Unstructured)
    (h1 : old.deletionTimestamp = none) (h2 : cur.deletionTimestamp ≠ none) :
    (UpdateFunc f old cur unavailableRegistered availableRegistered cfgOk
        factoryOk newInformer).1.targetInformers = f.targetInformers ∧
    (UpdateFunc f old cur unavailableRegistered availableRegistered cfgOk
        factoryOk newInformer).1.clusterClients = f.clusterClients ∧
    (UpdateFunc f old cur unavailableRegistered availableRegistered cfgOk
        factoryOk newInformer).2 =
      if unavailableRegistered then
        [DispatchEvent.captureSnapshot old.name,
          DispatchEvent.invokeUnavailable old.name]
      else [] := by
  have hc : old.deletionTimestamp = none ∧ cur.deletionTimestamp ≠ none :=
    ⟨h1, h2⟩
  unfold UpdateFunc
  rw [if_pos hc]
  exact ⟨rfl, rfl, rfl⟩

/-- C6, witness on the fixture where cluster A becomes marked for
deletion. -/
theorem updateFunc_marked_for_deletion_frame_witness :
    (UpdateFunc implAdd clusterA clusterAMarked true true true true
        newInf2).1.targetInformers = implAdd.targetInformers ∧
    (UpdateFunc implAdd clusterA clusterAMarked true true true true
        newInf2).2 =
      [DispatchEvent.captureSnapshot "A",
        DispatchEvent.invokeUnavailable "A"] := by
  have h := updateFunc_marked_for_deletion_frame implAdd clusterA
    clusterAMarked true true true true newInf2 rfl (by decide)
  exact ⟨h.1, h.2.2.trans (by decide)⟩

/-- The joined-clusters loop over a well-typed listing filters by the joined
condition and, when onlyReady is set, also by the ready condition. -/
theorem getJoinedClustersLoop_map (onlyReady : Bool)
    (cs : List FederatedCluster) :
    getJoinedClustersLoop onlyReady (cs.map ClusterStoreItem.cluster) =
      Except.ok (cs.filter fun c =>
        IsClusterJoined c.status && (!onlyReady || IsClusterReady c.status)) := by
  induction cs with
  | nil => rfl
  | cons c rest ih =>
    rw [List.map_cons, getJoinedClustersLoop, List.filter_cons]
    by_cases h : (IsClusterJoined c.status &&
        (!onlyReady || IsClusterReady c.status)) = true
    · rw [if_pos h, if_pos h, ih]
      rfl
    · rw [if_neg h, if_neg h, ih]

/-- C7, counterexample: cluster A is ready and present in the registry view,
yet GetReadyClusters returns the empty list, because A is not joined — the
ready-clusters query does not select every registered cluster classified
ready. -/
theorem getReadyClusters_counterexample :
    IsClusterReady clusterAReadyOnly.status = true ∧
    implC7.clusterInformer.store.items =
      [ClusterStoreItem.cluster clusterAReadyOnly] ∧
    GetReadyClusters implC7 = Except.ok [] := by
  refine ⟨by decide, rfl, rfl⟩

/-- C7, amended: over a registry view listing exactly the given clusters,
GetReadyClusters returns exactly those whose Joined condition and Ready
condition are both true; a registered ready cluster that is also joined is
therefore contained in the result, but a ready cluster that is not joined is
omitted. -/
theorem getReadyClusters_joined_and_ready (f : FederatedInformerImpl)
    (cs : List FederatedCluster)
    (h : f.clusterInformer.store.items = cs.map ClusterStoreItem.cluster) :
    GetReadyClusters f =
      Except.ok (cs.filter fun c =>
        IsClusterJoined c.status && IsClusterReady c.status) := by
  rw [GetReadyClusters, getJoinedClusters, h, getJoinedClustersLoop_map]
  simp

/-- C7, witness: the registry fixture listing the joined and ready cluster A
yields exactly cluster A. -/
theorem getReadyClusters_joined_and_ready_witness :
    GetReadyClusters implW7 = Except.ok [clusterA] :=
  (getReadyClusters_joined_and_ready implW7 [clusterA] rfl).trans rfl

/-- C9: for a cluster name with no target informer, ListFromCluster returns
the empty collection with a nil error while GetByKey returns an error for the
same missing-handle condition. -/
theorem missing_handle_list_get (f : FederatedInformerImpl)
    (clusterName key : String)
    (h : assocLookup f.targetInformers clusterName = none) :
    ListFromCluster f clusterName = ([], none) ∧
    GetByKey f clusterName key =
      (none, false, some ("cluster " ++ clusterName ++ " not found")) := by
  rw [ListFromCluster, GetByKey, h]
  exact ⟨rfl, rfl⟩

/-- C9, witness on the fixture with no target informers. -/
theorem missing_handle_list_get_witness :
    ListFromCluster implEmpty "A" = ([], none) ∧
    GetByKey implEmpty "A" "k" =
      (none, false, some "cluster A not found") := by
  have h := missing_handle_list_get implEmpty "A" "k" rfl
  exact ⟨h.1, h.2.trans (by decide)⟩

/-- C10: GetKeyFor returns the key component of the deletion-handling key
function and discards its error component, so whenever the key function
reports an error the empty string is returned, and a caller cannot tell a
failed key derivation apart from an object whose derived key is the empty
string. -/
theorem getKeyFor_discards_error (item : KeyItem) :
    GetKeyFor item = (DeletionHandlingMetaNamespaceKeyFunc item).1 ∧
    (∀ e, (DeletionHandlingMetaNamespaceKeyFunc item).2 = some e →
      GetKeyFor item = "") ∧
    GetKeyFor (KeyItem.invalid "bad") = GetKeyFor (KeyItem.object "" "") ∧
    (DeletionHandlingMetaNamespaceKeyFunc (KeyItem.invalid "bad")).2 ≠
      none ∧
    (DeletionHandlingMetaNamespaceKeyFunc (KeyItem.object "" "")).2 = none := by
  refine ⟨rfl, fun e he => ?_, rfl, by decide, rfl⟩
  cases item with
  | object ns n => exact absurd he (by simp [DeletionHandlingMetaNamespaceKeyFunc])
  | tombstone k => exact absurd he (by simp [DeletionHandlingMetaNamespaceKeyFunc])
  | invalid desc => rfl

/-- C10, witness: on an item without object metadata the key function errors
and GetKeyFor returns the empty string. -/
theorem getKeyFor_discards_error_witness :
    GetKeyFor (KeyItem.invalid "bad") = "" :=
  (getKeyFor_discards_error (KeyItem.invalid "bad")).2.1
    "object has no meta: bad" rfl

/-- When no lookup on the given informers errors, the fan-out loop returns
one tagged entry per informer whose mirror contains the key. -/
theorem getFromAllClustersLoop_ok (key : String)
    (l : List (String × Informer Unstructured))
    (h : ∀ p ∈ l, (p.2.store.getByKey key).2.2 = none) :
    getFromAllClustersLoop key l =
      Except.ok (l.filterMap fun p =>
        if (p.2.store.getByKey key).2.1 then
          some { object := (p.2.store.getByKey key).1, clusterName := p.1 }
        else none) := by
  induction l with
  | nil => rfl
  | cons p rest ih =>
    obtain ⟨clusterName, targetInformer⟩ := p
    have hp : (targetInformer.store.getByKey key).2.2 = none :=
      h _ (List.mem_cons_self _ _)
    have hrest : ∀ q ∈ rest, (q.2.store.getByKey key).2.2 = none :=
      fun q hq => h q (List.mem_cons_of_mem _ hq)
    rw [getFromAllClustersLoop, List.filterMap_cons]
    simp only [hp]
    by_cases he : (targetInformer.store.getByKey key).2.1 = true
    · rw [if_pos he, if_pos he, ih hrest]
      rfl
    · rw [if_neg he, if_neg he, ih hrest]

/-- When every informer before the failing one is error-free, the fan-out
loop returns that first error with no partial result. -/
theorem getFromAllClustersLoop_error (key : String)
    (pre : List (String × Informer Unstructured)) (clusterName : String)
    (targetInformer : Informer Unstructured)
    (post : List (String × Informer Unstructured)) (e : String)
    (hpre : ∀ p ∈ pre, (p.2.store.getByKey key).2.2 = none)
    (herr : (targetInformer.store.getByKey key).2.2 = some e) :
    getFromAllClustersLoop key
      (pre ++ (clusterName, targetInformer) :: post) = Except.error e := by
  induction pre with
  | nil =>
    rw [List.nil_append, getFromAllClustersLoop]
    simp only [herr]
  | cons p rest ih =>
    obtain ⟨n, inf⟩ := p
    have hp : (inf.store.getByKey key).2.2 = none :=
      hpre _ (List.mem_cons_self _ _)
    have hrest : ∀ q ∈ rest, (q.2.store.getByKey key).2.2 = none :=
      fun q hq => hpre q (List.mem_cons_of_mem _ hq)
    rw [List.cons_append, getFromAllClustersLoop]
    simp only [hp]
    by_cases he : (inf.store.getByKey key).2.1 = true
    · rw [if_pos he, ih hrest]
      rfl
    · rw [if_neg he]
      exact ih hrest

/-- C8: GetFromAllClusters has union semantics — with no lookup errors it
returns exactly one entry, tagged with the origin cluster name, per target
informer whose mirror contains the key and none for informers whose mirror
lacks it — and it fails fast, returning the first per-cluster lookup error
with no partial results. -/
theorem getFromAllClusters_union_failfast (f : FederatedInformerImpl)
    (key : String) :
    ((∀ p ∈ f.targetInformers, (p.2.store.getByKey key).2.2 = none) →
      GetFromAllClusters f key =
        Except.ok (f.targetInformers.filterMap fun p =>
          if (p.2.store.getByKey key).2.1 then
            some { object := (p.2.store.getByKey key).1, clusterName := p.1 }
          else none)) ∧
    (∀ pre clusterName targetInformer post e,
      f.targetInformers = pre ++ (clusterName, targetInformer) :: post →
      (∀ p ∈ pre, (p.2.store.getByKey key).2.2 = none) →
      (targetInformer.store.getByKey key).2.2 = some e →
      GetFromAllClusters f key = Except.error e) := by
  constructor
  · intro h
    rw [GetFromAllClusters]
    exact getFromAllClustersLoop_ok key f.targetInformers h
  · intro pre clusterName targetInformer post e hsplit hpre herr
    rw [GetFromAllClusters, hsplit]
    exact getFromAllClustersLoop_error key pre clusterName targetInformer
      post e hpre herr

/-- C8, witness: on the union fixture the key k is found only in cluster A,
and on the fail-fast fixture the failing lookup on B yields its error with no
partial result. -/
theorem getFromAllClusters_union_failfast_witness :
    GetFromAllClusters implUnion "k" =
      Except.ok [{ object := some objK, clusterName := "A" }] ∧
    GetFromAllClusters implC8 "k" = Except.error "lookup failed" := by
  constructor
  · exact ((getFromAllClusters_union_failfast implUnion "k").1
      (by decide)).trans rfl
  · exact (getFromAllClusters_union_failfast implC8 "k").2
      [("A", mkTargetInformer 1 storeWithK)] "B" (mkTargetInformer 2 storeErr)
      [] "lookup failed" rfl (by decide) rfl

/-- C1: with every target informer mirror built by the managed resource
informer (so serving only marked objects), every object GetClusterObject
returns bears the management marker — on the mirror path as on the direct
path — and on the direct path an object lacking the marker is reported as
absent, not found with no error, rather than returned. -/
theorem getClusterObject_managed_uniform (f : FederatedInformerImpl)
    (getClient : String → ClientResult) (clusterName qualifiedName : String)
    (hmirror : ∀ p ∈ f.targetInformers, ManagedMirror p.2.store) :
    (∀ obj ex err,
      GetClusterObject f getClient clusterName qualifiedName =
        (some obj, ex, err) →
      HasManagedLabel obj = true) ∧
    (∀ get obj,
      ClusterSynced f clusterName = false →
      getClient clusterName = ClientResult.client get →
      get qualifiedName = RemoteGetResult.found obj →
      HasManagedLabel obj = false →
      GetClusterObject f getClient clusterName qualifiedName =
        (none, false, none)) := by
  constructor
  · intro obj ex err hres
    rw [GetClusterObject] at hres
    by_cases hs : ClusterSynced f clusterName = true
    · rw [if_pos hs] at hres
      rcases hlook : assocLookup f.targetInformers clusterName with _ | inf
      · rw [ClusterSynced, hlook] at hs
        cases hs
      · have hget : GetByKey f clusterName qualifiedName =
            inf.store.getByKey qualifiedName := by
          rw [GetByKey, hlook]
        rw [hget] at hres
        by_cases hb : (inf.store.getByKey qualifiedName).2.2 ≠ none ∨
            (inf.store.getByKey qualifiedName).2.1 = false
        · rw [if_pos hb] at hres
          cases hres
        · rw [if_neg hb] at hres
          push_neg at hb
          obtain ⟨hv, hex, herr⟩ := Prod.mk.injEq .. ▸ hres
          have hp : (clusterName, inf) ∈ f.targetInformers :=
            assocLookup_mem hlook
          refine hmirror _ hp qualifiedName obj ?_
          have h1 : (inf.store.getByKey qualifiedName).2.2 = none := hb.1
          have h2 : (inf.store.getByKey qualifiedName).2.1 = true := by
            rcases Bool.eq_false_or_eq_true
              (inf.store.getByKey qualifiedName).2.1 with h | h
            · exact h
            · exact absurd h hb.2
          calc inf.store.getByKey qualifiedName
              = ((inf.store.getByKey qualifiedName).1,
                  (inf.store.getByKey qualifiedName).2.1,
                  (inf.store.getByKey qualifiedName).2.2) := rfl
            _ = (some obj, true, none) := by rw [hv, h1, h2]
    · rw [if_neg hs] at hres
      rcases hcl : getClient clusterName with get | e
      · simp only [hcl] at hres
        rcases hr : get qualifiedName with robj | _ | e
        · simp only [hr] at hres
          by_cases hm : HasManagedLabel robj = true
          · rw [if_neg (by simp [hm])] at hres
            obtain ⟨hv, _, _⟩ := Prod.mk.injEq .. ▸ hres
            obtain rfl : robj = obj := Option.some.inj hv
            exact hm
          · rw [if_pos (by simp [Bool.eq_false_iff.mpr hm])] at hres
            cases hres
        · simp only [hr] at hres
          cases hres
        · simp only [hr] at hres
          cases hres
      · simp only [hcl] at hres
        cases hres
  · intro get obj hs hcl hr hm
    rw [GetClusterObject, if_neg (by simp [hs])]
    simp only [hcl, hr]
    rw [if_pos (by simp [hm])]

/-- C1, witness: with no mirrors at all and a direct read serving an
unmanaged object, GetClusterObject reports the object as absent with no
error. -/
theorem getClusterObject_managed_uniform_witness :
    GetClusterObject implEmpty clientUnmanaged "A" "ns/x" =
      (none, false, none) :=
  (getClusterObject_managed_uniform implEmpty clientUnmanaged "A" "ns/x"
      (by intro p hp; cases hp)).2
    remoteUnmanaged unmanagedObj rfl rfl rfl rfl

/-- The informer collection succeeds when every listed cluster name has a
target informer. -/
theorem collectInformersToCheck_isSome (f : FederatedInformerImpl)
    {cs : List FederatedCluster}
    (h : ∀ c ∈ cs, (assocLookup f.targetInformers c.name).isSome = true) :
    (collectInformersToCheck f cs).isSome = true := by
  induction cs with
  | nil => rfl
  | cons c rest ih =>
    rw [collectInformersToCheck]
    rcases hl : assocLookup f.targetInformers c.name with _ | inf
    · have hx := h c (List.mem_cons_self _ _)
      rw [hl] at hx
      simp at hx
    · have hr := ih fun c' hc' => h c' (List.mem_cons_of_mem _ hc')
      rcases hcol : collectInformersToCheck f rest with _ | infs
      · rw [hcol] at hr
        simp at hr
      · rfl

/-- A successful informer collection looked up every listed cluster and kept
the found informer. -/
theorem collectInformersToCheck_lookup {f : FederatedInformerImpl}
    {cs : List FederatedCluster} {infs : List (Informer Unstructured)}
    (h : collectInformersToCheck f cs = some infs) :
    ∀ c ∈ cs, ∃ inf, assocLookup f.targetInformers c.name = some inf ∧
      inf ∈ infs := by
  induction cs generalizing infs with
  | nil => intro c hc; cases hc
  | cons c rest ih =>
    rw [collectInformersToCheck] at h
    rcases hl : assocLookup f.targetInformers c.name with _ | inf
    · rw [hl] at h
      cases h
    · rw [hl] at h
      rcases hcol : collectInformersToCheck f rest with _ | restInfs
      · rw [hcol] at h
        cases h
      · rw [hcol] at h
        obtain rfl : inf :: restInfs = infs := Option.some.inj h
        intro c' hc'
        rcases List.mem_cons.mp hc' with rfl | hc''
        · exact ⟨inf, hl, List.mem_cons_self _ _⟩
        · obtain ⟨i, hli, hmem⟩ := ih hcol c' hc''
          exact ⟨i, hli, List.mem_cons_of_mem _ hmem⟩

/-- Every informer a successful collection returns is the lookup result of
some listed cluster. -/
theorem collectInformersToCheck_mem {f : FederatedInformerImpl}
    {cs : List FederatedCluster} {infs : List (Informer Unstructured)}
    (h : collectInformersToCheck f cs = some infs) :
    ∀ inf ∈ infs, ∃ c ∈ cs,
      assocLookup f.targetInformers c.name = some inf := by
  induction cs generalizing infs with
  | nil =>
    rw [collectInformersToCheck] at h
    obtain rfl : ([] : List (Informer Unstructured)) = infs :=
      Option.some.inj h
    intro inf hinf
    cases hinf
  | cons c rest ih =>
    rw [collectInformersToCheck] at h
    rcases hl : assocLookup f.targetInformers c.name with _ | inf
    · rw [hl] at h
      cases h
    · rw [hl] at h
      rcases hcol : collectInformersToCheck f rest with _ | restInfs
      · rw [hcol] at h
        cases h
      · rw [hcol] at h
        obtain rfl : inf :: restInfs = infs := Option.some.inj h
        intro i hi
        rcases List.mem_cons.mp hi with rfl | hi'
        · exact ⟨c, List.mem_cons_self _ _, hl⟩
        · obtain ⟨c', hc', hli⟩ := ih hcol i hi'
          exact ⟨c', List.mem_cons_of_mem _ hc', hli⟩

/-- C4, counterexample: with synced target informers for A and B, the
duplicated input list A, A makes ClustersSynced return true although the
active informer B is not named in the list — the set of active informers is
not equal to the list, refuting that true is returned only on exact
equality. -/
theorem clustersSynced_counterexample :
    ClustersSynced implSync [clusterA, clusterA] = true ∧
    "B" ∈ implSync.targetInformers.map Prod.fst ∧
    "B" ∉ [clusterA, clusterA].map FederatedCluster.name ∧
    ¬ (implSync.targetInformers.map Prod.fst).Perm
        ([clusterA, clusterA].map FederatedCluster.name) := by
  decide

/-- C4, amended: when the input list has pairwise distinct cluster names and
the target informer map has pairwise distinct keys (as a Go map does),
ClustersSynced returns true exactly when the active informer names are a
permutation of the listed names (same names, same count) and every active
informer reports initial sync complete; in every other such case it returns
false. -/
theorem clustersSynced_iff_perm (f : FederatedInformerImpl)
    (clusters : List FederatedCluster)
    (hk : (f.targetInformers.map Prod.fst).Nodup)
    (hc : (clusters.map FederatedCluster.name).Nodup) :
    ClustersSynced f clusters = true ↔
      ((f.targetInformers.map Prod.fst).Perm
          (clusters.map FederatedCluster.name) ∧
        ∀ p ∈ f.targetInformers, p.2.controller.hasSynced = true) := by
  constructor
  · intro h
    rw [ClustersSynced] at h
    rcases eq_or_ne f.targetInformers.length clusters.length with hlen | hlen
    · rw [if_neg (not_not_intro hlen)] at h
      rcases hcol : collectInformersToCheck f clusters with _ | infs
      · rw [hcol] at h
        cases h
      · rw [hcol] at h
        have hsub : (clusters.map FederatedCluster.name) ⊆
            (f.targetInformers.map Prod.fst) := by
          intro x hx
          obtain ⟨c, hcmem, rfl⟩ := List.mem_map.mp hx
          obtain ⟨inf, hli, _⟩ := collectInformersToCheck_lookup hcol c hcmem
          exact mem_keys_of_assocLookup hli
        have hperm : (clusters.map FederatedCluster.name).Perm
            (f.targetInformers.map Prod.fst) :=
          (hc.subperm hsub).perm_of_length_le (by simp [hlen])
        refine ⟨hperm.symm, fun p hp => ?_⟩
        have hkey : p.1 ∈ clusters.map FederatedCluster.name :=
          hperm.mem_iff.mpr (List.mem_map.mpr ⟨p, hp, rfl⟩)
        obtain ⟨c, hcmem, hname⟩ := List.mem_map.mp hkey
        obtain ⟨inf, hli, hinfs⟩ := collectInformersToCheck_lookup hcol c hcmem
        rw [hname, assocLookup_of_mem_nodup hk hp] at hli
        obtain rfl : p.2 = inf := Option.some.inj hli
        exact List.all_eq_true.mp h _ hinfs
    · rw [if_pos hlen] at h
      cases h
  · rintro ⟨hperm, hsync⟩
    have hlen : f.targetInformers.length = clusters.length := by
      have := hperm.length_eq
      simpa using this
    rw [ClustersSynced, if_neg (not_not_intro hlen)]
    have hall : ∀ c ∈ clusters,
        (assocLookup f.targetInformers c.name).isSome = true := by
      intro c hcmem
      rw [assocLookup_isSome_iff]
      exact hperm.mem_iff.mpr (List.mem_map.mpr ⟨c, hcmem, rfl⟩)
    obtain ⟨infs, hcol⟩ :=
      Option.isSome_iff_exists.mp (collectInformersToCheck_isSome f hall)
    rw [hcol, List.all_eq_true]
    intro inf hinf
    obtain ⟨c, hcmem, hli⟩ := collectInformersToCheck_mem hcol inf hinf
    exact hsync (c.name, inf) (assocLookup_mem hli)

/-- C4, witness: on a single synced informer for A and the list holding
exactly cluster A, ClustersSynced is true. -/
theorem clustersSynced_iff_perm_witness :
    ClustersSynced implW4 [clusterA] = true := by
  refine (clustersSynced_iff_perm implW4 [clusterA] (by decide)
    (by decide)).mpr ⟨by decide, fun p hp => ?_⟩
  obtain rfl := List.mem_singleton.mp hp
  rfl

end FedInformer
